import Mathlib

/-!
Verification of the ffmr-stats export pipeline (src/export.py) against its
natural-language specification.

The Python source is shallowly embedded: JSON scalars become the `Scalar`
inductive, Python dicts become association lists, Python `float` arithmetic is
modelled exactly over `ℚ` (the only float operations performed are division and
literal parsing, both exact on the inputs of interest), and exceptions become
`Option`/outcome types.  Python `dict(...)` construction collapses duplicate
keys (first-insertion position, last value wins); this is modelled explicitly
by `listToDict`.
-/

/-- A JSON/Python scalar value as it appears in the input documents. -/
inductive Scalar where
  | str (s : String)
  | int (n : Int)
  | float (q : ℚ)
  | bool (b : Bool)
deriving DecidableEq

/-- Decimal value of a digit list (most significant first). -/
def digitsVal (ds : List Char) : Nat :=
  ds.foldl (fun a c => a * 10 + (c.toNat - 48)) 0

/-- All characters are decimal digits. -/
def allDigits (ds : List Char) : Bool :=
  ds.all (fun c => c.isDigit)

/-- A non-empty all-digit run parses to its decimal value, otherwise fails. -/
def parseDigits (ds : List Char) : Option Nat :=
  if !ds.isEmpty && allDigits ds then some (digitsVal ds) else none

/-- Strip one optional leading sign; returns (negative?, remaining chars). -/
def parseSign (ds : List Char) : Bool × List Char :=
  match ds with
  | '-' :: r => (true, r)
  | '+' :: r => (false, r)
  | _ => (false, ds)

/-- Python `int(s)` on a string: optional sign followed by digits only
(whitespace/underscore tolerance of CPython is not modelled; a fractional
string like "3.5" fails, as in Python). -/
def pyParseInt (s : String) : Option Int :=
  let sd := parseSign s.data
  (parseDigits sd.2).map (fun n => if sd.1 then -(n : Int) else (n : Int))

/-- Python `float(s)` on a string: optional sign, integer part, optional
decimal point and fractional part (exponents/inf/nan not modelled).  The
value is exact over `ℚ`. -/
def pyParseFloat (s : String) : Option ℚ :=
  let sd := parseSign s.data
  let ds := sd.2
  let ip := ds.takeWhile (fun c => c != '.')
  let rest := ds.dropWhile (fun c => c != '.')
  let core : Option ℚ :=
    match rest with
    | [] => (parseDigits ip).map (fun n => (n : ℚ))
    | _ :: fp =>
        if fp.any (fun c => c == '.') then none
        else if ip.isEmpty && fp.isEmpty then none
        else if !(allDigits ip && allDigits fp) then none
        else some ((digitsVal ip : ℚ) + (digitsVal fp : ℚ) / ((10 : ℚ) ^ fp.length))
  core.map (fun q => if sd.1 then -q else q)

/-- Rendering of a rational used only inside modelled string output. -/
def ratRepr (q : ℚ) : String :=
  if q.den = 1 then toString q.num else toString q.num ++ "/" ++ toString q.den

/-- Python `str(v)`: total, never raises.  The exact rendering of numbers is a
modelling choice; no claim inspects it. -/
def pyStr : Scalar → String
  | .str s => s
  | .int n => toString n
  | .float q => ratRepr q
  | .bool b => if b then "True" else "False"

/-- Truncation toward zero, Python `int(float)`. -/
def pyTrunc (q : ℚ) : Int :=
  q.num.tdiv (q.den : Int)

/-- Python `float(v)`: ints, floats and bools convert; strings are parsed;
failure (`ValueError`) is `none`. -/
def pyFloat : Scalar → Option ℚ
  | .int n => some (n : ℚ)
  | .float q => some q
  | .bool b => some (if b then 1 else 0)
  | .str s => pyParseFloat s

/-- Python `int(v)`: ints and bools convert, floats truncate toward zero,
strings are parsed as (signed) digit runs; failure is `none`. -/
def pyInt : Scalar → Option Int
  | .int n => some n
  | .float q => some (pyTrunc q)
  | .bool b => some (if b then 1 else 0)
  | .str s => pyParseInt s

/-- Numeric value of a scalar, if it is numeric (int, float, bool). -/
def scalarNum : Scalar → Option ℚ
  | .int n => some (n : ℚ)
  | .float q => some q
  | .bool b => some (if b then 1 else 0)
  | .str _ => none

/-- Python `==` on scalars: numeric values compare by value across int/float/
bool; strings compare as strings; numeric vs string is `False`. -/
def pyEq (a b : Scalar) : Bool :=
  match scalarNum a, scalarNum b with
  | some x, some y => x == y
  | none, none =>
      match a, b with
      | .str s, .str t => s == t
      | _, _ => false
  | _, _ => false

/-- The three value kinds of the per-key coercion policy in
`generate_statistics_query` (src/export.py lines 44-49). -/
inductive KeyKind where
  | kstr
  | kfloat
  | kint
deriving DecidableEq

/-- Keys coerced to string (src/export.py line 44). -/
def strKeys : List String := ["gateway"]

/-- Keys coerced to float (src/export.py line 46). -/
def floatKeys : List String := ["uptime", "loadavg", "memory_usage", "rootfs_usage"]

/-- The kind assigned to a flat key, following the `if`/`elif`/`else` chain of
`generate_statistics_query`. -/
def keyKind (k : String) : KeyKind :=
  if k ∈ strKeys then .kstr
  else if k ∈ floatKeys then .kfloat
  else .kint

/-- The kind a coerced scalar actually has (`none` for bool, which the
coercion never produces). -/
def kindOf : Scalar → Option KeyKind
  | .str _ => some .kstr
  | .float _ => some .kfloat
  | .int _ => some .kint
  | .bool _ => none

/-- The per-key coercion of `generate_statistics_query`: `str(v)` /
`float(v)` / `int(v)` chosen by the key; `none` models an uncaught exception
inside the loop. -/
def coerce (k : String) (v : Scalar) : Option Scalar :=
  match keyKind k with
  | .kstr => some (.str (pyStr v))
  | .kfloat => (pyFloat v).map .float
  | .kint => (pyInt v).map .int

/-- A nested statistics dict (`StatisticsBlob`): an ordered association list
whose entries are scalars or nested dicts.  This is the shape tested by
`isinstance(v, dict)` in `flatten_statistics`. -/
inductive Blob where
  | nil : Blob
  | consScalar (k : String) (v : Scalar) (rest : Blob) : Blob
  | consDict (k : String) (d : Blob) (rest : Blob) : Blob
deriving DecidableEq

/-- One step of Python dict construction: assigning key `kv.1` keeps the
first-insertion position but overwrites the value if the key exists. -/
def dictInsert (acc : List (String × Scalar)) (kv : String × Scalar) :
    List (String × Scalar) :=
  if acc.any (fun p => p.1 == kv.1)
  then acc.map (fun p => if p.1 == kv.1 then (p.1, kv.2) else p)
  else acc ++ [kv]

/-- Python `dict(pairs)`: fold the pairs into a dict, collapsing duplicate
keys (last value wins, first position kept). -/
def listToDict (l : List (String × Scalar)) : List (String × Scalar) :=
  l.foldl dictInsert []

/-- The sequence yielded by the `items()` generator of `flatten_statistics`:
scalar entries unchanged, nested dicts recursively flattened (the recursive
call returns a dict, hence the inner `listToDict`) and re-keyed with `_`. -/
def flattenItems : Blob → List (String × Scalar)
  | .nil => []
  | .consScalar k v r => (k, v) :: flattenItems r
  | .consDict k d r =>
      (listToDict (flattenItems d)).map (fun p => (k ++ "_" ++ p.1, p.2))
        ++ flattenItems r

/-- `flatten_statistics` (src/export.py lines 30-39): the generated items,
collected with `dict(items())`. -/
def flatten_statistics (b : Blob) : List (String × Scalar) :=
  listToDict (flattenItems b)

/-- The raw emission with no dict collapse anywhere; used as a specification
to reason about `flatten_statistics` on collision-free input. -/
def flattenRaw : Blob → List (String × Scalar)
  | .nil => []
  | .consScalar k v r => (k, v) :: flattenRaw r
  | .consDict k d r =>
      (flattenRaw d).map (fun p => (k ++ "_" ++ p.1, p.2)) ++ flattenRaw r

/-- One InfluxDB point dict as built by the source (statistics points carry
`time`, link points carry `time_precision`). -/
structure Point where
  measurement : String
  tags : List (String × Scalar)
  time : Option String
  time_precision : Option String
  fields : List (String × Scalar)
deriving DecidableEq

/-- The loop body of `generate_statistics_query` over the flattened items: a
coercion failure anywhere aborts the whole list (the Python exception escapes
the function before anything is returned). -/
def buildPoints (tags : List (String × Scalar)) (timestamp : String) :
    List (String × Scalar) → Option (List Point)
  | [] => some []
  | (k, v) :: rest =>
      match coerce k v with
      | none => none
      | some val =>
          match buildPoints tags timestamp rest with
          | none => none
          | some ps =>
              some ({ measurement := k, tags := tags, time := some timestamp,
                      time_precision := none, fields := [("value", val)] } :: ps)

/-- `generate_statistics_query` (src/export.py lines 41-60). -/
def generate_statistics_query (stats : Blob) (timestamp : String)
    (tags : List (String × Scalar)) : Option (List Point) :=
  buildPoints tags timestamp (flatten_statistics stats)

/-- The `location` sub-dict of a node's `nodeinfo` (latitude/longitude as raw
scalars; a malformed document can hold non-numeric values there). -/
structure Location where
  latitude : Scalar
  longitude : Scalar
deriving DecidableEq

/-- The parts of a node's `nodeinfo` dict that `insert_data` reads.  `system`
is kept as a dict because the code tests `'role' in ...`; `location` is
optional because the code guards its access with an inner `try`. -/
structure NodeInfo where
  node_id : Scalar
  hostname : Scalar
  system : List (String × Scalar)
  firmware_base : Scalar
  firmware_release : Scalar
  autoupdater_enabled : Scalar
  autoupdater_branch : Scalar
  hardware_model : Scalar
  hardware_nproc : Scalar
  location : Option Location
deriving DecidableEq

/-- One value of the node-info document's `nodes` map. -/
structure NodeRecord where
  nodeinfo : NodeInfo
  statistics : Blob
  lastseen : String
deriving DecidableEq

/-- Modelled from the spec: the external `geohash` library's `encode`, which
is not part of this repository.  Per the spec it geocodes latitude/longitude
into a single deterministic string token and raises (here: `none`) on
non-numeric input; the token's exact content is irrelevant to every claim. -/
def geohashEncode (lat lon : Scalar) : Option String :=
  match scalarNum lat, scalarNum lon with
  | some a, some b => some ("gh:" ++ ratRepr a ++ "," ++ ratRepr b)
  | _, _ => none

/-- The eight unconditional tags built in `insert_data`
(src/export.py lines 167-176). -/
def baseTags (ni : NodeInfo) : List (String × Scalar) :=
  [("node_id", ni.node_id), ("hostname", ni.hostname),
   ("firmware_base", ni.firmware_base), ("firmware_release", ni.firmware_release),
   ("autoupdater_enabled", ni.autoupdater_enabled),
   ("autoupdater_branch", ni.autoupdater_branch),
   ("hardware_model", ni.hardware_model), ("hardware_nproc", ni.hardware_nproc)]

/-- The tag dict after the optional-location step (src/export.py lines
177-184): the `location` tag is added only when the location sub-dict exists
and geohash encoding succeeds; any failure there is swallowed by the inner
`try`/`except: pass`. -/
def buildTags (ni : NodeInfo) : List (String × Scalar) :=
  match ni.location with
  | none => baseTags ni
  | some loc =>
      match geohashEncode loc.latitude loc.longitude with
      | none => baseTags ni
      | some g => baseTags ni ++ [("location", .str g)]

/-- The per-node body of the first loop of `insert_data` (src/export.py lines
162-187): gateway nodes are skipped via `continue`; any exception from tag
building or point generation is swallowed by the outer `try`/`except:
continue`, so the node contributes no batch (`none`).  A `some` batch is
exactly what `db.write_points` receives for this node. -/
def processNode (v : NodeRecord) : Option (List Point) :=
  match v.nodeinfo.system.lookup "role" with
  | some r =>
      if pyEq r (.str "gateway")
      then none
      else generate_statistics_query v.statistics v.lastseen (buildTags v.nodeinfo)
  | none => generate_statistics_query v.statistics v.lastseen (buildTags v.nodeinfo)

/-- The statistics half of `insert_data`: the sequence of point batches
written, one per surviving node, in iteration order. -/
def insertNodeData (nodes : List (String × NodeRecord)) : List (List Point) :=
  nodes.filterMap (fun kv => processNode kv.2)

/-- One entry of the topology document's `nodes` list. -/
structure GraphNode where
  node_id : String
deriving DecidableEq

/-- One entry of the topology document's `links` list.  `tq` is the raw
numeric transmission quality (JSON int or float, modelled exactly in `ℚ`). -/
structure Link where
  source : Int
  target : Int
  tq : ℚ
  vpn : Scalar
  bidirect : Scalar
deriving DecidableEq

/-- Python list indexing `xs[i]`: negative indices address from the end; an
index outside `-n ≤ i < n` raises `IndexError` (`none`). -/
def pyIndex (xs : List α) (i : Int) : Option α :=
  let j := if i < 0 then i + xs.length else i
  if 0 ≤ j then xs[j.toNat]? else none

/-- `get_nodes_for_link` (src/export.py lines 62-71): resolve both endpoint
indices in the topology node list, then both node ids in the node-info map;
any lookup failure raises (`none`). -/
def get_nodes_for_link (graph_nodes : List GraphNode)
    (real_nodes : List (String × NodeRecord)) (source target : Int) :
    Option (String × String × Scalar × Scalar) :=
  match pyIndex graph_nodes source with
  | none => none
  | some s =>
      match pyIndex graph_nodes target with
      | none => none
      | some t =>
          match real_nodes.lookup s.node_id with
          | none => none
          | some sn =>
              match real_nodes.lookup t.node_id with
              | none => none
              | some tn =>
                  some (s.node_id, t.node_id,
                        sn.nodeinfo.hostname, tn.nodeinfo.hostname)

/-- The per-link body of the second loop of `insert_data` (src/export.py
lines 190-215): resolution failure or division by a zero `tq` raises and is
swallowed by `except: continue` (`none`); otherwise exactly one link point is
written. -/
def processLink (graph_nodes : List GraphNode)
    (real_nodes : List (String × NodeRecord)) (l : Link) : Option Point :=
  match get_nodes_for_link graph_nodes real_nodes l.source l.target with
  | none => none
  | some (s_nodeid, t_nodeid, s_hostname, t_hostname) =>
      if l.tq = 0 then none
      else some {
        measurement := "link",
        tags := [("s_nodeid", .str s_nodeid), ("t_nodeid", .str t_nodeid),
                 ("s_hostname", s_hostname), ("t_hostname", t_hostname),
                 ("bidirect", l.bidirect), ("vpn", l.vpn)],
        time := none,
        time_precision := some "m",
        fields := [("tq", .float (1 / l.tq))] }

/-- The link half of `insert_data`: the sequence of link points written, one
per surviving link, in iteration order. -/
def insertLinkData (graph_nodes : List GraphNode)
    (real_nodes : List (String × NodeRecord)) (links : List Link) : List Point :=
  links.filterMap (processLink graph_nodes real_nodes)

/-- A fetched top-level document, reduced to the field `get_api_resource`
inspects; `version` is `none` when the key is absent. -/
structure ApiDoc where
  version : Option Scalar
deriving DecidableEq

/-- Outcome of a step that either yields a value or terminates the whole run
(uncaught exception or `exit(1)`). -/
inductive RunOutcome (α : Type) where
  | ok (a : α)
  | fatal
deriving DecidableEq

/-- `get_api_resource` (src/export.py lines 9-18) given the fetch result
(`none` = `requests` raised).  A fetch failure is caught and ends in
`exit(1)`; `api['version']` on a document without the key raises `KeyError`,
and a failing `assert api['version'] == 1` raises `AssertionError` — neither
is caught by the `except requests.exceptions.RequestException` clause, so
both abort the run. -/
def get_api_resource (fetched : Option ApiDoc) : RunOutcome ApiDoc :=
  match fetched with
  | none => .fatal
  | some api =>
      match api.version with
      | none => .fatal
      | some v => if pyEq v (.int 1) then .ok api else .fatal

/-- Example: the spec's nested blob `\x7b"a":\x7b"b":1,"c":2\x7d,"d":3\x7d`. -/
def exNested : Blob :=
  .consDict "a" (.consScalar "b" (.int 1) (.consScalar "c" (.int 2) .nil))
    (.consScalar "d" (.int 3) .nil)

/-- Example: the spec's already-flat blob `\x7b"a":1,"b":2\x7d`. -/
def exFlat : Blob :=
  .consScalar "a" (.int 1) (.consScalar "b" (.int 2) .nil)

/-- Example: a blob whose two distinct paths collide after joining with `_`. -/
def exCollide : Blob :=
  .consScalar "a_b" (.int 1) (.consDict "a" (.consScalar "b" (.int 2) .nil) .nil)

/-- A node-info fixture with every required tag source present, an empty
`system` dict and no location. -/
def sampleInfo : NodeInfo :=
  { node_id := .str "A", hostname := .str "h1", system := [],
    firmware_base := .str "base", firmware_release := .str "rel",
    autoupdater_enabled := .bool true, autoupdater_branch := .str "stable",
    hardware_model := .str "model", hardware_nproc := .int 1, location := none }

/-- A healthy node fixture. -/
def sampleNode : NodeRecord :=
  { nodeinfo := sampleInfo,
    statistics := .consScalar "clients" (.int 3) .nil,
    lastseen := "2020-01-01T00:00:00Z" }

/-- A second healthy node fixture, keyed "B". -/
def nodeB : NodeRecord :=
  { nodeinfo := { sampleInfo with node_id := .str "B", hostname := .str "h2" },
    statistics := .consScalar "clients" (.int 5) .nil,
    lastseen := "2020-01-01T00:00:00Z" }

/-- A node whose one statistic cannot be coerced: "clients" is an integer key
but carries a non-numeric string. -/
def badNode : NodeRecord :=
  { nodeinfo := sampleInfo,
    statistics := .consScalar "clients" (.str "abc") .nil,
    lastseen := "2020-01-01T00:00:00Z" }

/-- A node whose declared system role is "gateway". -/
def gatewayNode : NodeRecord :=
  { nodeinfo := { sampleInfo with system := [("role", .str "gateway")] },
    statistics := .consScalar "clients" (.int 3) .nil,
    lastseen := "2020-01-01T00:00:00Z" }

/-- A node with a valid numeric location. -/
def locNode : NodeRecord :=
  { nodeinfo := { sampleInfo with location := some { latitude := .int 50, longitude := .int 8 } },
    statistics := .consScalar "clients" (.int 3) .nil,
    lastseen := "2020-01-01T00:00:00Z" }

/-- Specification side: `HasPath b p v` holds when following the key path `p`
through nested dicts of `b` reaches the scalar `v`. -/
inductive HasPath : Blob → List String → Scalar → Prop where
  | scalarHead (k : String) (v : Scalar) (rest : Blob) :
      HasPath (.consScalar k v rest) [k] v
  | dictHead (k : String) (d rest : Blob) (p : List String) (v : Scalar) :
      HasPath d p v → HasPath (.consDict k d rest) (k :: p) v
  | skipScalar (k : String) (w : Scalar) (rest : Blob) (p : List String) (v : Scalar) :
      HasPath rest p v → HasPath (.consScalar k w rest) p v
  | skipDict (k : String) (d rest : Blob) (p : List String) (v : Scalar) :
      HasPath rest p v → HasPath (.consDict k d rest) p v

/-- Join a key path with the `_` separator. -/
def joinSegs : List String → String
  | [] => ""
  | [k] => k
  | k :: rest => k ++ "_" ++ joinSegs rest

/-- Everything before the first `_` of a string. -/
def firstSeg (s : String) : String :=
  ⟨s.data.takeWhile (fun c => c != '_')⟩

/-- A key that does not contain the `_` join separator. -/
def sepFreeKey (s : String) : Bool :=
  s.data.all (fun c => c != '_')

/-- The keys of the top level of a blob. -/
def topKeys : Blob → List String
  | .nil => []
  | .consScalar k _ r => k :: topKeys r
  | .consDict k _ r => k :: topKeys r

/-- Every key segment at every level avoids the `_` separator. -/
def blobSepFree : Blob → Bool
  | .nil => true
  | .consScalar k _ r => sepFreeKey k && blobSepFree r
  | .consDict k d r => sepFreeKey k && blobSepFree d && blobSepFree r

/-- Every dict level of the blob has pairwise distinct keys (true of every
blob obtained from a parsed JSON document). -/
def blobNodup : Blob → Bool
  | .nil => true
  | .consScalar k _ r => !(topKeys r).contains k && blobNodup r
  | .consDict k d r => !(topKeys r).contains k && blobNodup d && blobNodup r

/-- A blob with no nested dict. -/
def isFlat : Blob → Bool
  | .nil => true
  | .consScalar _ _ r => isFlat r
  | .consDict _ _ _ => false

/-- The scalar pairs of a blob's top level. -/
def blobPairs : Blob → List (String × Scalar)
  | .nil => []
  | .consScalar k v r => (k, v) :: blobPairs r
  | .consDict _ _ r => blobPairs r

theorem string_data_append (a b : String) : (a ++ b).data = a.data ++ b.data := rfl

theorem string_eq_of_data {a b : String} (h : a.data = b.data) : a = b := by
  cases a; cases b; exact congrArg String.mk h

theorem takeWhile_of_all {p : Char → Bool} {l : List Char} (h : l.all p = true) :
    l.takeWhile p = l := by
  induction l with
  | nil => rfl
  | cons a t ih =>
      rw [List.all_cons, Bool.and_eq_true] at h
      rw [List.takeWhile_cons, h.1, ih h.2]
      simp

theorem firstSeg_of_sepFree {k : String} (h : sepFreeKey k = true) : firstSeg k = k := by
  cases k with
  | mk data =>
      unfold firstSeg
      exact congrArg String.mk (takeWhile_of_all h)

theorem takeWhile_append_sep {l r : List Char}
    (h : l.all (fun c => c != '_') = true) :
    (l ++ '_' :: r).takeWhile (fun c => c != '_') = l := by
  induction l with
  | nil => simp [List.takeWhile_cons]
  | cons a t ih =>
      rw [List.all_cons, Bool.and_eq_true] at h
      rw [List.cons_append, List.takeWhile_cons, h.1, ih h.2]
      simp

theorem data_join (k r : String) : (k ++ "_" ++ r).data = k.data ++ '_' :: r.data := by
  rw [string_data_append, string_data_append]
  simp

theorem firstSeg_join {k : String} (r : String) (h : sepFreeKey k = true) :
    firstSeg (k ++ "_" ++ r) = k := by
  unfold firstSeg
  rw [data_join]
  exact congrArg String.mk (takeWhile_append_sep h)

theorem join_left_cancel {k a b : String} (h : k ++ "_" ++ a = k ++ "_" ++ b) : a = b := by
  have hd := congrArg String.data h
  rw [data_join, data_join] at hd
  exact string_eq_of_data (List.cons_injective (List.append_cancel_left hd))

theorem contains_eq_mem {l : List String} {a : String} :
    l.contains a = true ↔ a ∈ l := by
  simp [List.contains]

theorem firstSeg_mem_topKeys {b : Blob} (hsep : blobSepFree b = true) :
    ∀ key ∈ (flattenRaw b).map Prod.fst, firstSeg key ∈ topKeys b := by
  induction b with
  | nil => simp [flattenRaw]
  | consScalar k v r ih =>
      rw [blobSepFree, Bool.and_eq_true] at hsep
      intro key hk
      rw [flattenRaw, List.map_cons, List.mem_cons] at hk
      rw [topKeys]
      rcases hk with rfl | hk
      · rw [firstSeg_of_sepFree hsep.1]
        exact List.mem_cons_self _ _
      · exact List.mem_cons_of_mem _ (ih hsep.2 key hk)
  | consDict k d r ihd ihr =>
      rw [blobSepFree, Bool.and_eq_true, Bool.and_eq_true] at hsep
      intro key hk
      rw [flattenRaw, List.map_append, List.mem_append] at hk
      rw [topKeys]
      rcases hk with hk | hk
      · rw [List.map_map, List.mem_map] at hk
        obtain ⟨p, _, hp⟩ := hk
        have hkey : key = k ++ "_" ++ p.1 := hp.symm
        rw [hkey, firstSeg_join p.1 hsep.1.1]
        exact List.mem_cons_self _ _
      · exact List.mem_cons_of_mem _ (ihr hsep.2 key hk)

theorem flattenRaw_keys_nodup {b : Blob} (hsep : blobSepFree b = true)
    (hnd : blobNodup b = true) : ((flattenRaw b).map Prod.fst).Nodup := by
  induction b with
  | nil => simp [flattenRaw]
  | consScalar k v r ih =>
      rw [blobSepFree, Bool.and_eq_true] at hsep
      rw [blobNodup, Bool.and_eq_true] at hnd
      rw [flattenRaw, List.map_cons, List.nodup_cons]
      refine ⟨fun hmem => ?_, ih hsep.2 hnd.2⟩
      have := firstSeg_mem_topKeys hsep.2 k hmem
      rw [firstSeg_of_sepFree hsep.1] at this
      have hc : (topKeys r).contains k = true := contains_eq_mem.mpr this
      rw [hc] at hnd
      exact Bool.noConfusion hnd.1
  | consDict k d r ihd ihr =>
      rw [blobSepFree, Bool.and_eq_true, Bool.and_eq_true] at hsep
      rw [blobNodup, Bool.and_eq_true, Bool.and_eq_true] at hnd
      rw [flattenRaw, List.map_append, List.nodup_append]
      refine ⟨?_, ihr hsep.2 hnd.2, ?_⟩
      · rw [List.map_map]
        have hcomp : (Prod.fst ∘ fun p : String × Scalar => (k ++ "_" ++ p.1, p.2)) =
            (fun s => k ++ "_" ++ s) ∘ Prod.fst := rfl
        rw [hcomp, ← List.map_map]
        refine List.Nodup.map ?_ (ihd hsep.1.2 hnd.1.2)
        intro a b hab
        exact join_left_cancel hab
      · intro key hkey hkey2
        rw [List.map_map, List.mem_map] at hkey
        obtain ⟨p, _, hp⟩ := hkey
        have hkeq : key = k ++ "_" ++ p.1 := hp.symm
        have hmem := firstSeg_mem_topKeys hsep.2 key hkey2
        rw [hkeq, firstSeg_join p.1 hsep.1.1] at hmem
        have hc : (topKeys r).contains k = true := contains_eq_mem.mpr hmem
        rw [hc] at hnd
        exact Bool.noConfusion hnd.1.1

theorem foldl_dictInsert_of_nodup (l : List (String × Scalar)) :
    ∀ acc : List (String × Scalar), ((acc ++ l).map Prod.fst).Nodup →
      l.foldl dictInsert acc = acc ++ l := by
  induction l with
  | nil => intro acc _; simp
  | cons kv rest ih =>
      intro acc h
      have hins : dictInsert acc kv = acc ++ [kv] := by
        unfold dictInsert
        rw [if_neg]
        intro hany
        rw [List.any_eq_true] at hany
        obtain ⟨p, hp, hbeq⟩ := hany
        have hpk : p.1 = kv.1 := by simpa using hbeq
        rw [List.map_append, List.map_cons] at h
        have hdis := List.disjoint_of_nodup_append h
        exact hdis (List.mem_map_of_mem Prod.fst hp) (by rw [hpk]; exact List.mem_cons_self _ _)
      rw [List.foldl_cons, hins, ih (acc ++ [kv]) (by simpa using h)]
      simp

theorem listToDict_of_nodup {l : List (String × Scalar)}
    (h : (l.map Prod.fst).Nodup) : listToDict l = l := by
  unfold listToDict
  have := foldl_dictInsert_of_nodup l [] (by simpa using h)
  simpa using this

theorem flattenItems_eq_flattenRaw {b : Blob} (hsep : blobSepFree b = true)
    (hnd : blobNodup b = true) : flattenItems b = flattenRaw b := by
  induction b with
  | nil => rfl
  | consScalar k v r ih =>
      rw [blobSepFree, Bool.and_eq_true] at hsep
      rw [blobNodup, Bool.and_eq_true] at hnd
      rw [flattenItems, flattenRaw, ih hsep.2 hnd.2]
  | consDict k d r ihd ihr =>
      rw [blobSepFree, Bool.and_eq_true, Bool.and_eq_true] at hsep
      rw [blobNodup, Bool.and_eq_true, Bool.and_eq_true] at hnd
      rw [flattenItems, flattenRaw, ihd hsep.1.2 hnd.1.2,
        listToDict_of_nodup (flattenRaw_keys_nodup hsep.1.2 hnd.1.2),
        ihr hsep.2 hnd.2]

theorem flatten_eq_flattenRaw {b : Blob} (hsep : blobSepFree b = true)
    (hnd : blobNodup b = true) : flatten_statistics b = flattenRaw b := by
  unfold flatten_statistics
  rw [flattenItems_eq_flattenRaw hsep hnd,
    listToDict_of_nodup (flattenRaw_keys_nodup hsep hnd)]

theorem hasPath_ne_nil {b : Blob} {p : List String} {v : Scalar}
    (h : HasPath b p v) : p ≠ [] := by
  induction h with
  | scalarHead k v rest => simp
  | dictHead k d rest p v _ _ => simp
  | skipScalar k w rest p v _ ih => exact ih
  | skipDict k d rest p v _ ih => exact ih

theorem joinSegs_cons {k : String} {p : List String} (h : p ≠ []) :
    joinSegs (k :: p) = k ++ "_" ++ joinSegs p := by
  cases p with
  | nil => exact absurd rfl h
  | cons a t => rfl

theorem mem_flattenRaw_to_path : ∀ {b : Blob} {k : String} {v : Scalar},
    (k, v) ∈ flattenRaw b → ∃ p, HasPath b p v ∧ k = joinSegs p := by
  intro b
  induction b with
  | nil => intro k v h; simp [flattenRaw] at h
  | consScalar k0 v0 r ih =>
      intro k v h
      rw [flattenRaw, List.mem_cons] at h
      rcases h with h | h
      · rw [Prod.mk.injEq] at h
        obtain ⟨rfl, rfl⟩ := h
        exact ⟨[k], HasPath.scalarHead k v r, rfl⟩
      · obtain ⟨p, hp, hj⟩ := ih h
        exact ⟨p, HasPath.skipScalar k0 v0 r p v hp, hj⟩
  | consDict k0 d r ihd ihr =>
      intro k v h
      rw [flattenRaw, List.mem_append] at h
      rcases h with h | h
      · rw [List.mem_map] at h
        obtain ⟨⟨k1, v1⟩, hmem, heq⟩ := h
        rw [Prod.mk.injEq] at heq
        obtain ⟨hk, rfl⟩ := heq
        obtain ⟨p, hp, hj⟩ := ihd hmem
        refine ⟨k0 :: p, HasPath.dictHead k0 d r p v1 hp, ?_⟩
        rw [joinSegs_cons (hasPath_ne_nil hp), ← hj, hk]
      · obtain ⟨p, hp, hj⟩ := ihr h
        exact ⟨p, HasPath.skipDict k0 d r p v hp, hj⟩

theorem path_to_mem_flattenRaw {b : Blob} {p : List String} {v : Scalar}
    (h : HasPath b p v) : (joinSegs p, v) ∈ flattenRaw b := by
  induction h with
  | scalarHead k v rest => rw [flattenRaw]; exact List.mem_cons_self _ _
  | dictHead k d rest p v hp ih =>
      rw [joinSegs_cons (hasPath_ne_nil hp), flattenRaw]
      exact List.mem_append_left _ (List.mem_map.mpr ⟨(joinSegs p, v), ih, rfl⟩)
  | skipScalar k w rest p v _ ih =>
      rw [flattenRaw]
      exact List.mem_cons_of_mem _ ih
  | skipDict k d rest p v _ ih =>
      rw [flattenRaw]
      exact List.mem_append_right _ ih

theorem topKeys_nodup {b : Blob} (hnd : blobNodup b = true) : (topKeys b).Nodup := by
  induction b with
  | nil => simp [topKeys]
  | consScalar k v r ih =>
      rw [blobNodup, Bool.and_eq_true] at hnd
      rw [topKeys, List.nodup_cons]
      refine ⟨fun hmem => ?_, ih hnd.2⟩
      rw [← contains_eq_mem] at hmem
      rw [hmem] at hnd
      exact Bool.noConfusion hnd.1
  | consDict k d r ihd ihr =>
      rw [blobNodup, Bool.and_eq_true, Bool.and_eq_true] at hnd
      rw [topKeys, List.nodup_cons]
      refine ⟨fun hmem => ?_, ihr hnd.2⟩
      rw [← contains_eq_mem] at hmem
      rw [hmem] at hnd
      exact Bool.noConfusion hnd.1.1

theorem flattenItems_of_flat {c : Blob} (hf : isFlat c = true) :
    flattenItems c = blobPairs c := by
  induction c with
  | nil => rfl
  | consScalar k v r ih =>
      rw [isFlat] at hf
      rw [flattenItems, blobPairs, ih hf]
  | consDict k d r _ _ => exact Bool.noConfusion hf

theorem blobPairs_keys_of_flat {c : Blob} (hf : isFlat c = true) :
    (blobPairs c).map Prod.fst = topKeys c := by
  induction c with
  | nil => rfl
  | consScalar k v r ih =>
      rw [isFlat] at hf
      rw [blobPairs, topKeys, List.map_cons, ih hf]
  | consDict k d r _ _ => exact Bool.noConfusion hf

theorem flatten_of_flat {c : Blob} (hf : isFlat c = true) (hnd : blobNodup c = true) :
    flatten_statistics c = blobPairs c := by
  unfold flatten_statistics
  rw [flattenItems_of_flat hf]
  exact listToDict_of_nodup (by rw [blobPairs_keys_of_flat hf]; exact topKeys_nodup hnd)

theorem coerce_kind (k : String) (v s : Scalar) (h : coerce k v = some s) :
    kindOf s = some (keyKind k) := by
  unfold coerce at h
  cases hk : keyKind k <;> rw [hk] at h
  · injection h with h
    rw [← h]
    rfl
  · cases hv : pyFloat v <;> rw [hv] at h
    · exact Option.noConfusion h
    · injection h with h
      rw [← h]
      rfl
  · cases hv : pyInt v <;> rw [hv] at h
    · exact Option.noConfusion h
    · injection h with h
      rw [← h]
      rfl

theorem buildPoints_none {tags : List (String × Scalar)} {ts : String}
    {l : List (String × Scalar)} (h : ∃ p ∈ l, coerce p.1 p.2 = none) :
    buildPoints tags ts l = none := by
  induction l with
  | nil => simp at h
  | cons a rest ih =>
      obtain ⟨p, hp, hc⟩ := h
      obtain ⟨k, v⟩ := a
      rcases List.mem_cons.mp hp with rfl | hp'
      · rw [buildPoints, hc]
      · rw [buildPoints, ih ⟨p, hp', hc⟩]
        cases coerce k v <;> rfl

theorem processNode_not_gateway (v : NodeRecord)
    (h : v.nodeinfo.system.lookup "role" = none ∨
      ∃ r, v.nodeinfo.system.lookup "role" = some r ∧
        pyEq r (Scalar.str "gateway") = false) :
    processNode v =
      generate_statistics_query v.statistics v.lastseen (buildTags v.nodeinfo) := by
  unfold processNode
  rcases h with h | ⟨r, hr, hne⟩
  · rw [h]
  · rw [hr]
    exact if_neg (by rw [hne]; exact Bool.false_ne_true)

theorem insertNodeData_split {v : NodeRecord} (h : processNode v = none)
    (pre post : List (String × NodeRecord)) (name : String) :
    insertNodeData (pre ++ (name, v) :: post) =
      insertNodeData pre ++ insertNodeData post := by
  unfold insertNodeData
  rw [List.filterMap_append, List.filterMap_cons, h]

theorem insertLinkData_split {gn : List GraphNode}
    {rn : List (String × NodeRecord)} {l : Link}
    (h : processLink gn rn l = none) (pre post : List Link) :
    insertLinkData gn rn (pre ++ l :: post) =
      insertLinkData gn rn pre ++ insertLinkData gn rn post := by
  unfold insertLinkData
  rw [List.filterMap_append, List.filterMap_cons, h]

theorem lookup_baseTags_location (ni : NodeInfo) :
    (baseTags ni).lookup "location" = none := by
  simp [baseTags, List.lookup]

theorem lookup_buildTags_location (ni : NodeInfo) (loc : Location) (g : String)
    (hl : ni.location = some loc)
    (hg : geohashEncode loc.latitude loc.longitude = some g) :
    (buildTags ni).lookup "location" = some (Scalar.str g) := by
  unfold buildTags
  rw [hl]
  simp [hg, baseTags, List.lookup]

theorem buildTags_of_no_location (ni : NodeInfo)
    (h : ni.location = none ∨
      ∃ loc, ni.location = some loc ∧
        geohashEncode loc.latitude loc.longitude = none) :
    buildTags ni = baseTags ni := by
  unfold buildTags
  rcases h with h | ⟨loc, hl, hg⟩
  · rw [h]
  · rw [hl]
    simp [hg]

/-- C1: the kind of the coerced field value is determined solely by the flat
key: "gateway" is coerced to a string, the four float keys to a float, every
other key to an integer, and every possible key is assigned exactly one of
the three kinds. -/
theorem claim1 (k : String) :
    (keyKind k = KeyKind.kstr ↔ k = "gateway")
    ∧ (keyKind k = KeyKind.kfloat ↔ k ∈ floatKeys)
    ∧ (keyKind k = KeyKind.kint ↔ (k ≠ "gateway" ∧ k ∉ floatKeys))
    ∧ (∀ v s, coerce k v = some s → kindOf s = some (keyKind k)) := by
  have hgwf : ("gateway" : String) ∉ floatKeys := by decide
  refine ⟨?_, ?_, ?_, fun v s h => coerce_kind k v s h⟩ <;>
    · unfold keyKind
      by_cases h1 : k ∈ strKeys
      · have hk : k = "gateway" := by simpa [strKeys] using h1
        subst hk
        simp [h1, hgwf]
      · have hk : ¬(k = "gateway") := by simpa [strKeys] using h1
        by_cases h2 : k ∈ floatKeys <;> simp [h1, h2, hk]

/-- Witness for C1 at the concrete key "uptime" and an integer raw value. -/
theorem claim1_witness : kindOf (Scalar.float 100) = some (keyKind "uptime") :=
  (claim1 "uptime").2.2.2 (Scalar.int 100) (Scalar.float 100) rfl

/-- C2 counterexample: on the blob `\x7b"a_b":1,"a":\x7b"b":2\x7d\x7d` the two
distinct paths join to the same flat key, and the scalar entry ("a_b", 1) is
not mapped to itself — `dict(...)` overwrites it — refuting the unrestricted
claim. -/
theorem claim2_counterexample :
    flatten_statistics exCollide = [("a_b", Scalar.int 2)]
    ∧ ("a_b", Scalar.int 1) ∉ flatten_statistics exCollide
    ∧ HasPath exCollide ["a_b"] (Scalar.int 1) :=
  ⟨by decide, by decide,
    HasPath.scalarHead "a_b" (Scalar.int 1)
      (Blob.consDict "a" (Blob.consScalar "b" (Scalar.int 2) Blob.nil) Blob.nil)⟩

/-- C2 (amended): for blobs whose key segments are `_`-free and pairwise
distinct per level (every parsed JSON dict satisfies the latter), the
flattened mapping contains exactly the pairs (joined path, scalar) of the
blob; the spec's two concrete examples hold; and flattening an already-flat
dict returns it unchanged. -/
theorem claim2 (b : Blob) (hsep : blobSepFree b = true) (hnd : blobNodup b = true) :
    (∀ (k : String) (v : Scalar),
      (k, v) ∈ flatten_statistics b ↔ ∃ p, HasPath b p v ∧ k = joinSegs p)
    ∧ flatten_statistics exNested =
        [("a_b", Scalar.int 1), ("a_c", Scalar.int 2), ("d", Scalar.int 3)]
    ∧ (∀ c : Blob, isFlat c = true → blobNodup c = true →
        flatten_statistics c = blobPairs c) := by
  refine ⟨?_, by decide, fun c hf hnd2 => flatten_of_flat hf hnd2⟩
  intro k v
  rw [flatten_eq_flattenRaw hsep hnd]
  constructor
  · exact mem_flattenRaw_to_path
  · rintro ⟨p, hp, rfl⟩
    exact path_to_mem_flattenRaw hp

/-- Witness for C2 at the spec's nested example blob. -/
theorem claim2_witness :
    flatten_statistics exNested =
      [("a_b", Scalar.int 1), ("a_c", Scalar.int 2), ("d", Scalar.int 3)] :=
  (claim2 exNested (by decide) (by decide)).2.1

/-- C3: a node with one uncoercible statistic yields no point batch at all
(not even a partial one), and the batches of the surrounding nodes are
exactly those produced without it. -/
theorem claim3 (pre post : List (String × NodeRecord)) (name : String)
    (bad : NodeRecord)
    (hfail : ∃ p ∈ flatten_statistics bad.statistics, coerce p.1 p.2 = none) :
    (∀ ts tags, generate_statistics_query bad.statistics ts tags = none)
    ∧ processNode bad = none
    ∧ insertNodeData (pre ++ (name, bad) :: post) =
        insertNodeData pre ++ insertNodeData post := by
  have hg : ∀ ts tags, generate_statistics_query bad.statistics ts tags = none :=
    fun ts tags => buildPoints_none hfail
  have hp : processNode bad = none := by
    unfold processNode
    cases bad.nodeinfo.system.lookup "role" with
    | none => exact hg _ _
    | some r =>
        by_cases hb : pyEq r (Scalar.str "gateway") = true
        · exact if_pos hb
        · show (if pyEq r (Scalar.str "gateway") = true then none
              else generate_statistics_query bad.statistics bad.lastseen
                (buildTags bad.nodeinfo)) = none
          rw [if_neg hb]
          exact hg _ _
  exact ⟨hg, hp, insertNodeData_split hp pre post name⟩

/-- Witness for C3: the uncoercible node "b" is dropped while its two
sibling nodes' batches are exactly those produced without it. -/
theorem claim3_witness :
    (∃ p ∈ flatten_statistics badNode.statistics, coerce p.1 p.2 = none)
    ∧ insertNodeData ([("g", sampleNode)] ++ ("b", badNode) :: [("h", nodeB)]) =
        insertNodeData [("g", sampleNode)] ++ insertNodeData [("h", nodeB)] :=
  ⟨by decide,
    (claim3 [("g", sampleNode)] [("h", nodeB)] "b" badNode (by decide)).2.2⟩

theorem resolve_none_src {gn : List GraphNode} {rn : List (String × NodeRecord)}
    {src tgt : Int} (h : pyIndex gn src = none) :
    get_nodes_for_link gn rn src tgt = none := by
  unfold get_nodes_for_link
  rw [h]

theorem resolve_none_tgt {gn : List GraphNode} {rn : List (String × NodeRecord)}
    {src tgt : Int} (h : pyIndex gn tgt = none) :
    get_nodes_for_link gn rn src tgt = none := by
  unfold get_nodes_for_link
  cases hs : pyIndex gn src with
  | none => rfl
  | some s => simp only [h]

theorem resolve_none_slookup {gn : List GraphNode} {rn : List (String × NodeRecord)}
    {src tgt : Int} {s : GraphNode} (hs : pyIndex gn src = some s)
    (hl : rn.lookup s.node_id = none) :
    get_nodes_for_link gn rn src tgt = none := by
  unfold get_nodes_for_link
  simp only [hs]
  cases ht : pyIndex gn tgt with
  | none => rfl
  | some t => simp only [hl]

theorem resolve_none_tlookup {gn : List GraphNode} {rn : List (String × NodeRecord)}
    {src tgt : Int} {t : GraphNode} (ht : pyIndex gn tgt = some t)
    (hl : rn.lookup t.node_id = none) :
    get_nodes_for_link gn rn src tgt = none := by
  unfold get_nodes_for_link
  cases hs : pyIndex gn src with
  | none => rfl
  | some s =>
      simp only [ht]
      cases hl2 : rn.lookup s.node_id with
      | none => rfl
      | some sn => simp only [hl]

theorem processLink_none_of_resolve {gn : List GraphNode}
    {rn : List (String × NodeRecord)} {l : Link}
    (h : get_nodes_for_link gn rn l.source l.target = none) :
    processLink gn rn l = none := by
  unfold processLink
  rw [h]

theorem processLink_none_of_tq0 {gn : List GraphNode}
    {rn : List (String × NodeRecord)} {l : Link} (h : l.tq = 0) :
    processLink gn rn l = none := by
  unfold processLink
  cases hres : get_nodes_for_link gn rn l.source l.target with
  | none => rfl
  | some res =>
      obtain ⟨a, b, c, d⟩ := res
      exact if_pos h

/-- C4: a link whose source or target index fails Python list indexing, or
whose resolved node id is missing from the node-info map, or whose raw
transmission quality is zero, is skipped (no point) and the remaining links'
points are exactly those produced without it. -/
theorem claim4 (gn : List GraphNode) (rn : List (String × NodeRecord))
    (pre post : List Link) (l : Link)
    (h : pyIndex gn l.source = none ∨ pyIndex gn l.target = none
       ∨ (∃ s, pyIndex gn l.source = some s ∧ rn.lookup s.node_id = none)
       ∨ (∃ t, pyIndex gn l.target = some t ∧ rn.lookup t.node_id = none)
       ∨ l.tq = 0) :
    processLink gn rn l = none
    ∧ insertLinkData gn rn (pre ++ l :: post) =
        insertLinkData gn rn pre ++ insertLinkData gn rn post := by
  have hp : processLink gn rn l = none := by
    rcases h with h | h | ⟨s, hs, hl⟩ | ⟨t, ht, hl⟩ | h
    · exact processLink_none_of_resolve (resolve_none_src h)
    · exact processLink_none_of_resolve (resolve_none_tgt h)
    · exact processLink_none_of_resolve (resolve_none_slookup hs hl)
    · exact processLink_none_of_resolve (resolve_none_tlookup ht hl)
    · exact processLink_none_of_tq0 h
  exact ⟨hp, insertLinkData_split hp pre post⟩

/-- Witness for C4: a link with an out-of-range source index among two intact
links. -/
theorem claim4_witness :
    pyIndex [GraphNode.mk "A"] (5 : Int) = none
    ∧ processLink [GraphNode.mk "A"] [("A", sampleNode)]
        { source := 5, target := 0, tq := 1,
          vpn := Scalar.bool false, bidirect := Scalar.bool false } = none :=
  ⟨by decide,
    (claim4 [GraphNode.mk "A"] [("A", sampleNode)] [] []
      { source := 5, target := 0, tq := 1,
        vpn := Scalar.bool false, bidirect := Scalar.bool false }
      (Or.inl (by decide))).1⟩

/-- C5: a resolvable link with non-zero raw quality yields exactly one point
with measurement "link", the six identifying tags, and the single field "tq"
holding the reciprocal of the raw value; raw 1 gives 1.0 and raw 255 gives a
value within (0.0039, 0.0040). -/
theorem claim5 (gn : List GraphNode) (rn : List (String × NodeRecord)) (l : Link)
    (sID tID : String) (sHost tHost : Scalar)
    (hres : get_nodes_for_link gn rn l.source l.target =
      some (sID, tID, sHost, tHost))
    (htq : l.tq ≠ 0) :
    processLink gn rn l = some
      { measurement := "link",
        tags := [("s_nodeid", Scalar.str sID), ("t_nodeid", Scalar.str tID),
                 ("s_hostname", sHost), ("t_hostname", tHost),
                 ("bidirect", l.bidirect), ("vpn", l.vpn)],
        time := none, time_precision := some "m",
        fields := [("tq", Scalar.float (1 / l.tq))] }
    ∧ (l.tq = 1 → (1 : ℚ) / l.tq = 1)
    ∧ (l.tq = 255 → 39/10000 < (1 : ℚ) / l.tq ∧ (1 : ℚ) / l.tq < 40/10000) := by
  refine ⟨?_, fun h => by rw [h]; norm_num, fun h => by rw [h]; norm_num⟩
  unfold processLink
  rw [hres]
  exact if_neg htq

/-- Witness for C5: a two-node topology with one link of raw quality 1. -/
theorem claim5_witness :
    processLink [GraphNode.mk "A", GraphNode.mk "B"]
      [("A", sampleNode), ("B", nodeB)]
      { source := 0, target := 1, tq := 1,
        vpn := Scalar.bool true, bidirect := Scalar.bool true } = some
      { measurement := "link",
        tags := [("s_nodeid", Scalar.str "A"), ("t_nodeid", Scalar.str "B"),
                 ("s_hostname", Scalar.str "h1"), ("t_hostname", Scalar.str "h2"),
                 ("bidirect", Scalar.bool true), ("vpn", Scalar.bool true)],
        time := none, time_precision := some "m",
        fields := [("tq", Scalar.float (1 / (1 : ℚ)))] } :=
  (claim5 [GraphNode.mk "A", GraphNode.mk "B"] [("A", sampleNode), ("B", nodeB)]
    { source := 0, target := 1, tq := 1,
      vpn := Scalar.bool true, bidirect := Scalar.bool true }
    "A" "B" (Scalar.str "h1") (Scalar.str "h2") rfl one_ne_zero).1

/-- C6: a node whose declared system role equals "gateway" produces zero
statistics points, whatever its statistics blob holds, and the other nodes'
batches are unaffected. -/
theorem claim6 (v : NodeRecord)
    (h : v.nodeinfo.system.lookup "role" = some (Scalar.str "gateway")) :
    processNode v = none
    ∧ ∀ (pre post : List (String × NodeRecord)) (name : String),
        insertNodeData (pre ++ (name, v) :: post) =
          insertNodeData pre ++ insertNodeData post := by
  have hp : processNode v = none := by
    unfold processNode
    rw [h]
    exact if_pos (by rfl)
  exact ⟨hp, fun pre post name => insertNodeData_split hp pre post name⟩

/-- Witness for C6 at a concrete gateway node. -/
theorem claim6_witness : processNode gatewayNode = none :=
  (claim6 gatewayNode (by decide)).1

/-- C7: if the location sub-dict is absent or geohash encoding fails, the
tag set has no "location" key and the node's statistics are still generated
exactly as for a location-less node; with valid coordinates the tag set maps
"location" to the deterministic geohash string. -/
theorem claim7 (v : NodeRecord)
    (hrole : v.nodeinfo.system.lookup "role" = none ∨
      ∃ r, v.nodeinfo.system.lookup "role" = some r ∧
        pyEq r (Scalar.str "gateway") = false) :
    ((v.nodeinfo.location = none ∨
        ∃ loc, v.nodeinfo.location = some loc ∧
          geohashEncode loc.latitude loc.longitude = none) →
      (buildTags v.nodeinfo).lookup "location" = none
      ∧ processNode v =
          generate_statistics_query v.statistics v.lastseen (baseTags v.nodeinfo))
    ∧ (∀ loc g, v.nodeinfo.location = some loc →
        geohashEncode loc.latitude loc.longitude = some g →
          (buildTags v.nodeinfo).lookup "location" = some (Scalar.str g)) := by
  constructor
  · intro hloc
    have hb : buildTags v.nodeinfo = baseTags v.nodeinfo :=
      buildTags_of_no_location v.nodeinfo hloc
    refine ⟨by rw [hb]; exact lookup_baseTags_location v.nodeinfo, ?_⟩
    rw [processNode_not_gateway v hrole, hb]
  · intro loc g hl hg
    exact lookup_buildTags_location v.nodeinfo loc g hl hg

/-- Witness for C7: a node with valid integer coordinates gets a location
tag; the same node without them gets none and identical statistics output. -/
theorem claim7_witness :
    (buildTags locNode.nodeinfo).lookup "location" = some (Scalar.str "gh:50,8")
    ∧ (buildTags sampleNode.nodeinfo).lookup "location" = none :=
  ⟨(claim7 locNode (Or.inl rfl)).2 { latitude := .int 50, longitude := .int 8 }
      "gh:50,8" rfl rfl,
    ((claim7 sampleNode (Or.inl rfl)).1 (Or.inl rfl)).1⟩

/-- C8 counterexample: a fetched document with no `version` field at all
aborts the run (the `api['version']` access raises an uncaught `KeyError`),
refuting the claim that an absent version field does not abort. -/
theorem claim8_counterexample :
    get_api_resource (some { version := none }) = RunOutcome.fatal := rfl

theorem get_api_some (d : ApiDoc) :
    get_api_resource (some d) =
      (match d.version with
       | none => RunOutcome.fatal
       | some v => if pyEq v (Scalar.int 1) = true then RunOutcome.ok d
           else RunOutcome.fatal) := rfl

theorem get_api_version_none (d : ApiDoc) (hv : d.version = none) :
    get_api_resource (some d) = RunOutcome.fatal := by
  rw [get_api_some, hv]

theorem get_api_version_some (d : ApiDoc) (v : Scalar) (hv : d.version = some v) :
    get_api_resource (some d) =
      if pyEq v (Scalar.int 1) = true then RunOutcome.ok d else RunOutcome.fatal := by
  rw [get_api_some, hv]

/-- C8 (amended): the `version` field is mandatory, not optional: a fetch
failure aborts, a document without the field aborts, a present value not
equal to 1 aborts, and the fetched document is returned exactly when the
field is present and equals 1. -/
theorem claim8 (d : ApiDoc) :
    (get_api_resource (some d) = RunOutcome.ok d ↔
      ∃ v, d.version = some v ∧ pyEq v (Scalar.int 1) = true)
    ∧ (d.version = none → get_api_resource (some d) = RunOutcome.fatal)
    ∧ (∀ v, d.version = some v → pyEq v (Scalar.int 1) = false →
        get_api_resource (some d) = RunOutcome.fatal)
    ∧ get_api_resource none = RunOutcome.fatal := by
  refine ⟨?_, ?_, ?_, rfl⟩
  · constructor
    · intro h
      cases hv : d.version with
      | none =>
          rw [get_api_version_none d hv] at h
          exact RunOutcome.noConfusion h
      | some v =>
          rw [get_api_version_some d v hv] at h
          by_cases hb : pyEq v (Scalar.int 1) = true
          · exact ⟨v, rfl, hb⟩
          · rw [if_neg hb] at h
            exact RunOutcome.noConfusion h
    · rintro ⟨v, hv, hb⟩
      rw [get_api_version_some d v hv]
      exact if_pos hb
  · intro hv
    exact get_api_version_none d hv
  · intro v hv hb
    rw [get_api_version_some d v hv]
    exact if_neg (by rw [hb]; exact Bool.false_ne_true)

/-- Witness for C8 (amended): a document with version 1 passes the check. -/
theorem claim8_witness :
    get_api_resource (some { version := some (Scalar.int 1) }) =
      RunOutcome.ok { version := some (Scalar.int 1) } :=
  (claim8 { version := some (Scalar.int 1) }).1.mpr ⟨Scalar.int 1, rfl, by decide⟩

/-- C9: when key segments are pairwise distinct at every level and never
contain the `_` separator, the joined flat key paths of the raw emission are
pairwise distinct — no two distinct nested paths collide after joining with
`_` — and consequently the `dict` collapse is the identity: no flattened
statistic is silently overwritten. -/
theorem claim9 (b : Blob) (hsep : blobSepFree b = true) (hnd : blobNodup b = true) :
    ((flattenRaw b).map Prod.fst).Nodup
    ∧ flatten_statistics b = flattenRaw b :=
  ⟨flattenRaw_keys_nodup hsep hnd, flatten_eq_flattenRaw hsep hnd⟩

/-- Witness for C9 at the spec's nested example blob: its raw keys are
distinct and nothing is overwritten by dict construction. -/
theorem claim9_witness :
    blobSepFree exNested = true ∧ blobNodup exNested = true
    ∧ ((flattenRaw exNested).map Prod.fst).Nodup
    ∧ flatten_statistics exNested = flattenRaw exNested :=
  ⟨by decide, by decide, (claim9 exNested (by decide) (by decide)).1,
    (claim9 exNested (by decide) (by decide)).2⟩

/-- C10: a node whose system dict lacks a "role" key, or whose role value
differs from "gateway", is not skipped by the role check: the driver proceeds
to build its tag set and statistics points exactly as for a role-less node. -/
theorem claim10 (v : NodeRecord)
    (h : v.nodeinfo.system.lookup "role" = none ∨
      ∃ r, v.nodeinfo.system.lookup "role" = some r ∧
        pyEq r (Scalar.str "gateway") = false) :
    processNode v =
      generate_statistics_query v.statistics v.lastseen (buildTags v.nodeinfo) :=
  processNode_not_gateway v h

/-- Witness for C10 at a role-less node. -/
theorem claim10_witness :
    processNode sampleNode =
      generate_statistics_query sampleNode.statistics sampleNode.lastseen
        (buildTags sampleNode.nodeinfo) :=
  claim10 sampleNode (Or.inl rfl)
